import Mathlib

/-!
Verification of the multi-agent chat workflow system (chat-ui / chat-be).

The definitions below shallowly embed the client code from
`chat-ui/src/app/config/api.ts` (the `ChatApiService`, in particular
`streamChatMessage`) and the `ChatDrawer` component (message routing,
streaming chunk handling, the send-button guard).  The backend Python
workflows (`supervisor_workflow.py`, the task manager and the streaming
endpoint) are not part of the sources; wherever a property is decided by
that missing code, the corresponding definition is modelled from the
specification and its doc comment says so explicitly.
-/

namespace ChatCore

/-! ## String utilities (JS `String.prototype.includes` / `toLowerCase`) -/

/-- Boolean test that the first list is a leading segment of the second. -/
def leadsList : List Char → List Char → Bool
  | [], _ => true
  | _ :: _, [] => false
  | a :: as, b :: bs => a == b && leadsList as bs

/-- Boolean test that the first list occurs contiguously inside the second. -/
def subList : List Char → List Char → Bool
  | n, [] => n.isEmpty
  | n, b :: bs => leadsList n (b :: bs) || subList n bs

/-- JS `hay.includes(needle)`: substring containment on strings. -/
def includesSub (hay needle : String) : Bool :=
  subList needle.data hay.data

/-- JS `s.toLowerCase()` restricted to the ASCII range used by the sources:
every character is lowered in place. -/
def lowerStr (s : String) : String :=
  String.mk (s.data.map Char.toLower)

/-! ## Client message routing (`ChatDrawer.sendChatMessageToBackend`)

From `sendChatMessageToBackend` in the ChatDrawer component: a message is
sent to the async-report endpoint (creating a pending interruption) exactly
when its lowercased text contains "report", "analysis" or "research";
every other message goes to the streaming path. -/

/-- The report/async predicate of `sendChatMessageToBackend`:
`message.text.toLowerCase().includes("report") || ...("analysis") || ...("research")`. -/
def isReportRequest (text : String) : Bool :=
  includesSub (lowerStr text) "report" ||
  includesSub (lowerStr text) "analysis" ||
  includesSub (lowerStr text) "research"

/-- The two backend paths a submitted message can take in the client. -/
inductive ClientAction
  | createInterruption
  | streamMessage
  deriving DecidableEq

/-- The action `sendChatMessageToBackend` performs for a given message text:
report-like texts call `chatApi.createAsyncReport` and store the returned
interruption via `setPendingInterruption`; all other texts call
`streamChatMessage`. -/
def clientSendAction (text : String) : ClientAction :=
  if isReportRequest text then ClientAction.createInterruption
  else ClientAction.streamMessage

/-! ## Stream chunks (`StreamChunk` in api.ts) -/

/-- The `type` tag of a `StreamChunk`: `"metadata" | "content" | "error" | "end"`. -/
inductive ChunkType
  | metadata
  | content
  | error
  | endEvt
  deriving DecidableEq

/-- A `StreamChunk` as used by the client: only the `data` fields the client
code reads (`content`, `error_message`) are represented; absent optional
fields are `none`. -/
structure StreamChunk where
  type : ChunkType
  content : Option String
  errorMessage : Option String
  deriving DecidableEq

/-- JS string coercion of a possibly-undefined value, as produced by
`prev + chunk.data.content` or a template literal when the field is absent. -/
def jsString : Option String → String
  | some s => s
  | none => "undefined"

/-! ## Client streaming-message state (`ChatDrawer.streamChatMessage` onChunk) -/

/-- The part of the client state that the `onChunk` callback of
`ChatDrawer.streamChatMessage` updates: the `text` of the streaming message,
the accumulated `streamingContent`, and the `streaming`/`error` metadata
flags of the placeholder message. -/
structure StreamMsgState where
  text : String
  accumulated : String
  streamingFlag : Bool
  errorFlag : Bool
  deriving DecidableEq

/-- The state right after the placeholder streaming message is created:
empty text, `streamingContent` reset to `""`, `metadata.streaming = true`. -/
def initMsgState : StreamMsgState :=
  { text := "", accumulated := "", streamingFlag := true, errorFlag := false }

/-- One step of the `onChunk` callback in `ChatDrawer.streamChatMessage`:
`content` chunks append `chunk.data.content` to the accumulated content and
set the message text to the accumulation; `metadata` chunks are only logged;
`error` chunks overwrite the text with an error banner and set the error
flag; `end` chunks clear the streaming flag. -/
def handleChunk (st : StreamMsgState) (c : StreamChunk) : StreamMsgState :=
  match c.type with
  | ChunkType.content =>
      let newContent := st.accumulated ++ jsString c.content
      { st with accumulated := newContent, text := newContent }
  | ChunkType.metadata => st
  | ChunkType.error =>
      { st with text := "❌ Error: " ++ jsString c.errorMessage, errorFlag := true }
  | ChunkType.endEvt => { st with streamingFlag := false }

/-- The client streaming-message state after a whole chunk sequence has been
delivered through `onChunk`. -/
def finalMsgState (cs : List StreamChunk) : StreamMsgState :=
  cs.foldl handleChunk initMsgState

/-- In-order concatenation of the (JS-coerced) `content` fragments of the
`content` chunks of a stream. -/
def contentConcat : List StreamChunk → String
  | [] => ""
  | c :: cs =>
      (if c.type = ChunkType.content then jsString c.content else "") ++ contentConcat cs

/-! ## Stream producer (backend `/api/chat/stream`)

Modelled from the spec: the Stream Multiplexer (spec §4.6) converts one
workflow invocation into an ordered chunk sequence.  The backend route
`routes/chat_routes.py` that implements it is not among the sources. -/

/-- Chunk constructor for a content fragment. -/
def contentChunk (s : String) : StreamChunk :=
  { type := ChunkType.content, content := some s, errorMessage := none }

/-- The single metadata chunk announcing the routing decision. -/
def metaChunk : StreamChunk :=
  { type := ChunkType.metadata, content := none, errorMessage := none }

/-- Chunk constructor for an internal-failure report. -/
def errChunk (m : String) : StreamChunk :=
  { type := ChunkType.error, content := none, errorMessage := some m }

/-- The terminating chunk of every stream. -/
def endChunk : StreamChunk :=
  { type := ChunkType.endEvt, content := none, errorMessage := none }

/-- Modelled from the spec: the Stream Multiplexer of §4.6 (the backend
streaming route, absent from the sources).  A fixed seed workflow output is
a list of content fragments plus an optional internal failure; the produced
stream is a metadata chunk, the content chunks in order, one error chunk if
the workflow failed, then exactly one end chunk. -/
def produceStream (fragments : List String) (failure : Option String) : List StreamChunk :=
  metaChunk ::
    (fragments.map contentChunk ++
      (match failure with
        | some m => [errChunk m]
        | none => []) ++
      [endChunk])

/-- Modelled from the spec: the final text the synchronous (non-streamed)
path returns for the same fixed seed workflow output — the fragments of the
workflow concatenated in order (spec §4.6 stream/non-stream equivalence). -/
def syncText : List String → String
  | [] => ""
  | s :: rest => s ++ syncText rest

/-- Number of chunks of a given type in a stream. -/
def countType (ty : ChunkType) (cs : List StreamChunk) : Nat :=
  (cs.filter (fun c => decide (c.type = ty))).length

/-! ## Task Manager (backend async lifecycle)

Modelled from the spec: the Task Manager of §4.5 lives in the backend
(`routes`/task registry), which is absent from the sources; the client only
mirrors its statuses (`AsyncTaskStatus` in api.ts, `checkTaskStatus` in the
ChatDrawer). -/

/-- Task statuses, `status ∈ {pending, awaitingChoice, running, completed,
failed, cancelled}` (spec §3, mirrored by `AsyncTaskStatus.status`). -/
inductive TaskStatus
  | pending
  | awaitingChoice
  | running
  | completed
  | failed
  | cancelled
  deriving DecidableEq

/-- Terminal statuses are `completed`, `failed` and `cancelled`. -/
def TaskStatus.isTerminal : TaskStatus → Bool
  | TaskStatus.completed => true
  | TaskStatus.failed => true
  | TaskStatus.cancelled => true
  | _ => false

/-- Position of a status in the lifecycle ordering
`pending < awaitingChoice < running < {completed, failed, cancelled}`. -/
def TaskStatus.rank : TaskStatus → Nat
  | TaskStatus.pending => 0
  | TaskStatus.awaitingChoice => 1
  | TaskStatus.running => 2
  | _ => 3

/-- An asynchronous Task entity (spec §3). -/
structure Task where
  id : String
  threadId : String
  status : TaskStatus
  progress : Nat
  resultText : Option String
  errorText : Option String
  deriving DecidableEq

/-- The two execution modes offered by an interruption. -/
inductive Mode
  | stream
  | async
  deriving DecidableEq

/-- Protocol violations reported by the Task Manager. -/
inductive TaskErr
  | invalidTaskState
  deriving DecidableEq

/-- The operations of the Task Manager state machine (spec §4.5). -/
inductive TaskOp
  | requireChoice
  | chooseMode (m : Mode)
  | finishOk (result : String)
  | finishErr (msg : String)
  | cancel

/-- Modelled from the spec: one Task-registry transition (spec §4.5).
`requireChoice` moves a fresh `pending` report Task to `awaitingChoice`;
`chooseMode` is valid only while `awaitingChoice` and starts the run;
`finishOk`/`finishErr` close a `running` Task; `cancel` moves any
non-terminal Task to `cancelled` and is a non-error no-op on a terminal
Task.  Invalid requests fail with `InvalidTaskState` and apply no side
effect. -/
def applyOp (t : Task) : TaskOp → Except TaskErr Task
  | TaskOp.requireChoice =>
      if t.status = TaskStatus.pending then
        Except.ok { t with status := TaskStatus.awaitingChoice }
      else Except.error TaskErr.invalidTaskState
  | TaskOp.chooseMode _ =>
      if t.status = TaskStatus.awaitingChoice then
        Except.ok { t with status := TaskStatus.running }
      else Except.error TaskErr.invalidTaskState
  | TaskOp.finishOk r =>
      if t.status = TaskStatus.running then
        Except.ok { t with status := TaskStatus.completed, resultText := some r, progress := 100 }
      else Except.error TaskErr.invalidTaskState
  | TaskOp.finishErr m =>
      if t.status = TaskStatus.running then
        Except.ok { t with status := TaskStatus.failed, errorText := some m }
      else Except.error TaskErr.invalidTaskState
  | TaskOp.cancel =>
      if t.status.isTerminal then Except.ok t
      else Except.ok { t with status := TaskStatus.cancelled }

/-- Run a sequence of Task operations; a rejected operation leaves the Task
unchanged (no side effect on protocol violation, spec §7). -/
def runOps (t : Task) : List TaskOp → Task
  | [] => t
  | op :: ops =>
      match applyOp t op with
      | Except.ok t2 => runOps t2 ops
      | Except.error _ => runOps t ops

/-- An interruption (spec §3 / `InterruptionResponse` in api.ts). -/
structure Interruption where
  taskId : String
  threadId : String
  prompt : String
  choices : List String
  deriving DecidableEq

/-- The two routes of a routing decision. -/
inductive Route
  | simple
  | report
  deriving DecidableEq

/-- Modelled from the spec: `submit(threadId, text)` of the Task Manager
(spec §4.5).  On the `report` route a Task is created `pending`, immediately
moved to `awaitingChoice`, and exactly one Interruption with the fixed
two-option menu is created; on the `simple` route no Task is ever created. -/
def submit (threadId text newId : String) : Route → Option (Task × Interruption)
  | Route.report =>
      let t0 : Task :=
        { id := newId, threadId := threadId, status := TaskStatus.pending,
          progress := 0, resultText := none, errorText := none }
      match applyOp t0 TaskOp.requireChoice with
      | Except.ok t1 =>
          some (t1,
            { taskId := newId, threadId := threadId,
              prompt := "How would you like the report to be generated for: " ++ text,
              choices := ["stream", "async"] })
      | Except.error _ => none
  | Route.simple => none

/-! ## Supervisor per-thread occupancy (spec §5)

Modelled from the spec: the per-thread ordering rule of §5 is enforced by
the backend Supervisor, absent from the sources.  The spec leaves open
whether a second message queues or rejects; the model rejects with
`ThreadBusy`, which §5 explicitly allows. -/

/-- The shared Supervisor registry of threads with an in-flight
routing-plus-workflow execution. -/
structure SupervisorState where
  inFlight : List String
  deriving DecidableEq

/-- Outcome of submitting a message on a thread. -/
inductive SubmitOutcome
  | started
  | threadBusy
  deriving DecidableEq

/-- Modelled from the spec: submitting a message on a thread (spec §5).  If
the thread already has an in-flight execution the request is rejected with
`ThreadBusy` and the state is unchanged; otherwise the thread becomes
in-flight. -/
def submitOnThread (st : SupervisorState) (tid : String) : SubmitOutcome × SupervisorState :=
  if tid ∈ st.inFlight then (SubmitOutcome.threadBusy, st)
  else (SubmitOutcome.started, { inFlight := tid :: st.inFlight })

/-- Modelled from the spec: completion of the in-flight execution of a
thread releases the thread (spec §5). -/
def completeOnThread (st : SupervisorState) (tid : String) : SupervisorState :=
  { inFlight := st.inFlight.erase tid }

/-- The ChatDrawer send button `disabled` condition:
`isUploading || isSendingMessage || isStreaming || !currentThreadId`
(JS falsiness of a string is emptiness). -/
def sendButtonDisabled (isUploading isSendingMessage isStreaming : Bool)
    (currentThreadId : String) : Bool :=
  isUploading || isSendingMessage || isStreaming || currentThreadId == ""

/-! ## Classifier (backend `supervisor_workflow.py`)

Modelled from the spec: the Classifier of §4.1; `supervisor_workflow.py`
itself is absent from the sources (only its README documents the keyword
routing). -/

/-- The report-signal keyword set (spec §4.1). -/
def reportSignals : List String :=
  ["report", "analysis", "research", "swot", "market analysis", "study", "feasibility"]

/-- The chat-signal keyword set (spec §4.1). -/
def chatSignals : List String :=
  ["hello", "calculate", "what time", "explain", "joke", "weather"]

/-- Case-insensitive substring match of a keyword against a text (spec §4.1). -/
def kwMatch (text kw : String) : Bool :=
  includesSub (lowerStr text) (lowerStr kw)

/-- The keywords of a set matched by a text. -/
def matchedKeywords (text : String) (kws : List String) : List String :=
  kws.filter (fun kw => kwMatch text kw)

/-- A routing decision (spec §3): route, confidence in `[0,1]`, matched
keywords (the rationale enumerates them). -/
structure RoutingDecision where
  route : Route
  confidence : ℚ
  matched : List String
  deriving DecidableEq

/-- The classifier score: count of matched report signals minus count of
matched chat signals (spec §4.1). -/
def reportScore (text : String) : ℤ :=
  ((matchedKeywords text reportSignals).length : ℤ) -
    ((matchedKeywords text chatSignals).length : ℤ)

/-- The saturating confidence normalization `score / (score + 1/2)` for a
positive score (spec §4.1). -/
def confOf (text : String) : ℚ :=
  (reportScore text : ℚ) / ((reportScore text : ℚ) + 1 / 2)

/-- Modelled from the spec: `classify(text)` of §4.1.  Score is the count of
matched report signals minus the count of matched chat signals; a positive
score is normalized to a confidence by the saturating map
`score / (score + 1/2)` and routed `report` when the confidence clears the
`1/2` threshold; all other traffic (ties, negative score, empty input)
defaults to `simple`. -/
def classify (text : String) : RoutingDecision :=
  if 0 < reportScore text then
    if 1 / 2 < confOf text then
      { route := Route.report, confidence := confOf text,
        matched := matchedKeywords text reportSignals ++ matchedKeywords text chatSignals }
    else
      { route := Route.simple, confidence := confOf text,
        matched := matchedKeywords text reportSignals ++ matchedKeywords text chatSignals }
  else
    { route := Route.simple, confidence := 0,
      matched := matchedKeywords text reportSignals ++ matchedKeywords text chatSignals }

/-! ## Arithmetic evaluator (backend `calculate_simple_math`)

Modelled from the spec: the restricted arithmetic grammar of §4.2; the
backend tool `calculate_simple_math` in `simple_chat_subgraph.py` is absent
from the sources.  The evaluator first rejects any input containing a
character outside numeric literals, `+ - * / ( )` and spaces (so every
identifier, function call or assignment is rejected before evaluation),
then tokenizes and evaluates with exact rational arithmetic. -/

/-- Characters admitted by the restricted grammar: digits, the four
operators, parentheses and spaces. -/
def allowedChar (c : Char) : Bool :=
  c.isDigit || c == '+' || c == '-' || c == '*' || c == '/' ||
  c == '(' || c == ')' || c == ' '

/-- Tokens of the restricted arithmetic grammar. -/
inductive Tok
  | num (n : Nat)
  | plus
  | minus
  | star
  | slash
  | lpar
  | rpar
  deriving DecidableEq

/-- Numeric value of a digit run. -/
def digitsVal : List Char → Nat → Nat
  | [], acc => acc
  | c :: cs, acc => digitsVal cs (acc * 10 + (c.toNat - 48))

/-- Fuelled tokenizer; any character outside the grammar aborts. -/
def tokenizeAux : Nat → List Char → Option (List Tok)
  | 0, _ => none
  | _ + 1, [] => some []
  | fuel + 1, c :: cs =>
      if c == ' ' then tokenizeAux fuel cs
      else if c.isDigit then
        let ds := List.takeWhile Char.isDigit (c :: cs)
        let rest := List.dropWhile Char.isDigit (c :: cs)
        (tokenizeAux fuel rest).map (fun ts => Tok.num (digitsVal ds 0) :: ts)
      else if c == '+' then (tokenizeAux fuel cs).map (fun ts => Tok.plus :: ts)
      else if c == '-' then (tokenizeAux fuel cs).map (fun ts => Tok.minus :: ts)
      else if c == '*' then (tokenizeAux fuel cs).map (fun ts => Tok.star :: ts)
      else if c == '/' then (tokenizeAux fuel cs).map (fun ts => Tok.slash :: ts)
      else if c == '(' then (tokenizeAux fuel cs).map (fun ts => Tok.lpar :: ts)
      else if c == ')' then (tokenizeAux fuel cs).map (fun ts => Tok.rpar :: ts)
      else none

/-- An unnormalized integer fraction, the working representation in the parser
of an exact rational value (the denominator is never zero along any
accepted parse). -/
structure Frac where
  num : ℤ
  den : ℤ
  deriving DecidableEq

/-- Exact fraction addition. -/
def fadd (x y : Frac) : Frac :=
  { num := x.num * y.den + y.num * x.den, den := x.den * y.den }

/-- Exact fraction subtraction. -/
def fsub (x y : Frac) : Frac :=
  { num := x.num * y.den - y.num * x.den, den := x.den * y.den }

/-- Exact fraction multiplication. -/
def fmul (x y : Frac) : Frac :=
  { num := x.num * y.num, den := x.den * y.den }

/-- Exact fraction division. -/
def fdiv (x y : Frac) : Frac :=
  { num := x.num * y.den, den := x.den * y.num }

/-- The rational value of a fraction. -/
def ratOfFrac (f : Frac) : ℚ :=
  (f.num : ℚ) / (f.den : ℚ)

mutual

/-- Fuelled recursive-descent parser/evaluator: an expression is a term
followed by a chain of additions and subtractions. -/
def pExpr : Nat → List Tok → Option (Frac × List Tok)
  | 0, _ => none
  | f + 1, ts =>
      match pTerm f ts with
      | some (v, rest) => pExprLoop f v rest
      | none => none

/-- Left-associative chain of additions and subtractions. -/
def pExprLoop : Nat → Frac → List Tok → Option (Frac × List Tok)
  | 0, _, _ => none
  | f + 1, acc, Tok.plus :: ts =>
      match pTerm f ts with
      | some (v, rest) => pExprLoop f (fadd acc v) rest
      | none => none
  | f + 1, acc, Tok.minus :: ts =>
      match pTerm f ts with
      | some (v, rest) => pExprLoop f (fsub acc v) rest
      | none => none
  | _ + 1, acc, ts => some (acc, ts)

/-- A term is a factor followed by a chain of multiplications and
divisions. -/
def pTerm : Nat → List Tok → Option (Frac × List Tok)
  | 0, _ => none
  | f + 1, ts =>
      match pFactor f ts with
      | some (v, rest) => pTermLoop f v rest
      | none => none

/-- Left-associative chain of multiplications and exact divisions; division
by zero aborts. -/
def pTermLoop : Nat → Frac → List Tok → Option (Frac × List Tok)
  | 0, _, _ => none
  | f + 1, acc, Tok.star :: ts =>
      match pFactor f ts with
      | some (v, rest) => pTermLoop f (fmul acc v) rest
      | none => none
  | f + 1, acc, Tok.slash :: ts =>
      match pFactor f ts with
      | some (v, rest) =>
          if v.num = 0 then none else pTermLoop f (fdiv acc v) rest
      | none => none
  | _ + 1, acc, ts => some (acc, ts)

/-- A factor is a numeric literal or a parenthesized expression. -/
def pFactor : Nat → List Tok → Option (Frac × List Tok)
  | 0, _ => none
  | _ + 1, Tok.num n :: ts => some (({ num := (n : ℤ), den := 1 } : Frac), ts)
  | f + 1, Tok.lpar :: ts =>
      match pExpr f ts with
      | some (v, Tok.rpar :: rest) => some (v, rest)
      | _ => none
  | _ + 1, _ => none

end

/-- Evaluation failures of the restricted arithmetic grammar. -/
inductive EvalErr
  | invalidExpression
  deriving DecidableEq

/-- Decidable equality for evaluation results. -/
instance : DecidableEq (Except EvalErr ℚ) := fun a b =>
  match a, b with
  | Except.ok x, Except.ok y =>
      if h : x = y then isTrue (by rw [h]) else isFalse (by intro hc; cases hc; exact h rfl)
  | Except.error x, Except.error y =>
      if h : x = y then isTrue (by rw [h]) else isFalse (by intro hc; cases hc; exact h rfl)
  | Except.ok _, Except.error _ => isFalse (by intro hc; cases hc)
  | Except.error _, Except.ok _ => isFalse (by intro hc; cases hc)

/-- Modelled from the spec: the arithmetic evaluation capability of the
Simple-Response Workflow (spec §4.2).  Inputs containing a character
outside the restricted alphabet are rejected with `InvalidExpression`
before any evaluation; admissible inputs are tokenized and evaluated to
their exact arithmetic value. -/
def evalArith (s : String) : Except EvalErr ℚ :=
  if s.data.all allowedChar then
    match tokenizeAux (s.data.length + 1) s.data with
    | none => Except.error EvalErr.invalidExpression
    | some ts =>
        match pExpr (3 * ts.length + 3) ts with
        | some (v, []) => Except.ok (ratOfFrac v)
        | _ => Except.error EvalErr.invalidExpression
  else Except.error EvalErr.invalidExpression

/-! ## `ChatApiService.streamChatMessage` (api.ts)

A direct embedding of the streaming client in
`chat-ui/src/app/config/api.ts`.  The fetch outcome and the reader are the
inputs; JSON parsing of a data line is an explicit function parameter
(`JSON.parse` succeeding or throwing).  The observable behaviour is the
ordered list of callback invocations. -/

/-- The callbacks `streamChatMessage` can invoke, in invocation order. -/
inductive CbEvent
  | chunkCb (c : StreamChunk)
  | errorCb (msg : String)
  | completeCb
  deriving DecidableEq

/-- The reader side of a fetch response body: the decoded texts delivered by
successive `reader.read()` calls, and — when the connection fails mid-stream
— the rejection the next `read()` produces instead of `done`. -/
structure BodyStream where
  chunksRead : List String
  readFailure : Option String
  deriving DecidableEq

/-- A fetch response as `streamChatMessage` consumes it: `ok`, `statusText`
and the optional body reader. -/
structure FetchResponse where
  ok : Bool
  statusText : String
  body : Option BodyStream

/-- One SSE line, as handled inside the read loop: lines starting with
`"data: "` are stripped, non-blank payloads are parsed; a parse failure
reports `"Failed to parse stream data"` through `onError` and the loop
continues. -/
def handleLine (parse : String → Option StreamChunk) (line : String) : List CbEvent :=
  if line.startsWith "data: " then
    let data := line.drop 6
    if data.trim ≠ "" then
      match parse data with
      | some c => [CbEvent.chunkCb c]
      | none => [CbEvent.errorCb "Failed to parse stream data"]
    else []
  else []

/-- The `while (true)` read loop of `streamChatMessage`: each read value is
appended to the buffer, the buffer is split on newlines keeping the last
fragment, and complete lines are handled; when the reader reports `done`
the `onComplete` callback fires, and a read rejection escapes to the outer
catch as an `onError` report. -/
def readLoop (parse : String → Option StreamChunk) :
    List String → Option String → String → List CbEvent
  | [], none, _ => [CbEvent.completeCb]
  | [], some m, _ => [CbEvent.errorCb m]
  | v :: rest, failure, buffer =>
      let buf := buffer ++ v
      let parts := buf.splitOn "\n"
      let newBuffer := parts.getLastD ""
      let lines := parts.dropLast
      (lines.map (handleLine parse)).flatten ++ readLoop parse rest failure newBuffer

/-- The complete SSE lines the read loop processes for a given sequence of
reads, with the same newline split and last-fragment buffer carry as
`readLoop`. -/
def loopLines : List String → String → List String
  | [], _ => []
  | v :: rest, buffer =>
      ((buffer ++ v).splitOn "\n").dropLast ++
        loopLines rest (((buffer ++ v).splitOn "\n").getLastD "")

/-- The whole of `ChatApiService.streamChatMessage`: the outer try/catch
turns a network failure, a non-ok response, a missing body reader or a
mid-stream read rejection into a single `onError` report; on a successful
response the read loop runs to `done` and fires `onComplete`. -/
def streamChatMessage (parse : String → Option StreamChunk)
    (fetchResult : Except String FetchResponse) : List CbEvent :=
  match fetchResult with
  | Except.error e => [CbEvent.errorCb e]
  | Except.ok resp =>
      if resp.ok = false then
        [CbEvent.errorCb ("Failed to start streaming: " ++ resp.statusText)]
      else
        match resp.body with
        | none => [CbEvent.errorCb "No response body reader available"]
        | some bs => readLoop parse bs.chunksRead bs.readFailure ""

/-! # Theorems -/

/-! ## Stream/non-stream equivalence (client chunk accumulation) -/

/-- The `onChunk` fold preserves `text = accumulated` and appends exactly the
content fragments, as long as no error chunk arrives. -/
theorem foldl_handleChunk (cs : List StreamChunk) :
    ∀ st : StreamMsgState, (∀ c ∈ cs, c.type ≠ ChunkType.error) →
      st.text = st.accumulated →
      (cs.foldl handleChunk st).text = st.accumulated ++ contentConcat cs := by
  induction cs with
  | nil =>
    intro st _ hst
    simpa [contentConcat, String.append_empty] using hst
  | cons c cs ih =>
    intro st hno hst
    have hc : c.type ≠ ChunkType.error := hno c (by simp)
    have hcs : ∀ d ∈ cs, d.type ≠ ChunkType.error := fun d hd => hno d (by simp [hd])
    rw [List.foldl_cons]
    cases htype : c.type with
    | content =>
      have hstep : handleChunk st c =
          { st with accumulated := st.accumulated ++ jsString c.content,
                    text := st.accumulated ++ jsString c.content } := by
        simp [handleChunk, htype]
      rw [hstep, ih _ hcs rfl]
      simp [contentConcat, htype, String.append_assoc]
    | metadata =>
      have hstep : handleChunk st c = st := by simp [handleChunk, htype]
      rw [hstep, ih _ hcs hst]
      simp [contentConcat, htype]
    | error => exact absurd htype hc
    | endEvt =>
      have hstep : handleChunk st c = { st with streamingFlag := false } := by
        simp [handleChunk, htype]
      rw [hstep, ih { st with streamingFlag := false } hcs hst]
      simp [contentConcat, htype]

/-- After an error-free stream, the text of the streaming message is exactly the
in-order concatenation of the content fragments. -/
theorem client_text_eq_concat (cs : List StreamChunk)
    (h : ∀ c ∈ cs, c.type ≠ ChunkType.error) :
    (finalMsgState cs).text = contentConcat cs := by
  have := foldl_handleChunk cs initMsgState h rfl
  simpa [finalMsgState, initMsgState] using this

/-- A stream produced for a non-failing workflow output has no error chunk. -/
theorem produceStream_no_error (frs : List String) :
    ∀ c ∈ produceStream frs none, c.type ≠ ChunkType.error := by
  intro c hc
  simp [produceStream] at hc
  rcases hc with h | h | h
  · rw [h]; simp [metaChunk]
  · rcases h with ⟨s, _, hs⟩
    rw [← hs]; simp [contentChunk]
  · rw [h]; simp [endChunk]

/-- The content fragments of a produced stream concatenate to the
synchronous text. -/
theorem produce_concat (frs : List String) :
    contentConcat (produceStream frs none) = syncText frs := by
  have hmap : contentConcat (frs.map contentChunk) = syncText frs := by
    induction frs with
    | nil => rfl
    | cons s rest ih => simp [contentConcat, contentChunk, syncText, jsString, ih]
  have happ : ∀ a b : List StreamChunk,
      contentConcat (a ++ b) = contentConcat a ++ contentConcat b := by
    intro a b
    induction a with
    | nil => simp [contentConcat]
    | cons c a ih => simp [contentConcat, ih, String.append_assoc]
  simp [produceStream, contentConcat, metaChunk, endChunk, happ, hmap]

/-- Claim C1: the concatenation of the content fragments of all content
stream events, in emission order, equals the text the synchronous path
would have returned, and in the client the text of the streaming message after
an error-free stream completes equals the in-order concatenation of the
delivered `chunk.data.content` values. -/
theorem stream_concat_equiv :
    (∀ cs : List StreamChunk, (∀ c ∈ cs, c.type ≠ ChunkType.error) →
        (finalMsgState cs).text = contentConcat cs) ∧
    (∀ frs : List String, (finalMsgState (produceStream frs none)).text = syncText frs) := by
  refine ⟨client_text_eq_concat, fun frs => ?_⟩
  rw [client_text_eq_concat _ (produceStream_no_error frs), produce_concat]

/-- Witness for claim C1 at a concrete error-free stream. -/
theorem stream_concat_equiv_witness :
    (∀ c ∈ [contentChunk "Hel", contentChunk "lo", endChunk], c.type ≠ ChunkType.error) ∧
    (finalMsgState [contentChunk "Hel", contentChunk "lo", endChunk]).text =
      contentConcat [contentChunk "Hel", contentChunk "lo", endChunk] :=
  ⟨by decide, stream_concat_equiv.1 _ (by decide)⟩

/-! ## Task lifecycle -/

/-- A single accepted Task operation never lowers the status rank. -/
theorem applyOp_rank_mono (t : Task) (op : TaskOp) (t2 : Task)
    (h : applyOp t op = Except.ok t2) :
    t.status.rank ≤ t2.status.rank := by
  cases op with
  | requireChoice =>
    by_cases hs : t.status = TaskStatus.pending
    · simp [applyOp, hs] at h
      rw [← h, hs]
      simp [TaskStatus.rank]
    · simp [applyOp, hs] at h
  | chooseMode m =>
    by_cases hs : t.status = TaskStatus.awaitingChoice
    · simp [applyOp, hs] at h
      rw [← h, hs]
      simp [TaskStatus.rank]
    · simp [applyOp, hs] at h
  | finishOk r =>
    by_cases hs : t.status = TaskStatus.running
    · simp [applyOp, hs] at h
      rw [← h, hs]
      simp [TaskStatus.rank]
    · simp [applyOp, hs] at h
  | finishErr m =>
    by_cases hs : t.status = TaskStatus.running
    · simp [applyOp, hs] at h
      rw [← h, hs]
      simp [TaskStatus.rank]
    · simp [applyOp, hs] at h
  | cancel =>
    by_cases hs : t.status.isTerminal = true
    · simp [applyOp, hs] at h
      rw [← h]
    · simp [applyOp, hs] at h
      rw [← h]
      cases hv : t.status <;> simp [TaskStatus.rank]

/-- No operation has any effect on a Task in a terminal status. -/
theorem applyOp_terminal_frozen (t : Task) (op : TaskOp)
    (h : t.status.isTerminal = true) :
    applyOp t op = Except.ok t ∨ applyOp t op = Except.error TaskErr.invalidTaskState := by
  have hp : t.status ≠ TaskStatus.pending := by
    intro hc; rw [hc] at h; simp [TaskStatus.isTerminal] at h
  have ha : t.status ≠ TaskStatus.awaitingChoice := by
    intro hc; rw [hc] at h; simp [TaskStatus.isTerminal] at h
  have hr : t.status ≠ TaskStatus.running := by
    intro hc; rw [hc] at h; simp [TaskStatus.isTerminal] at h
  cases op with
  | requireChoice => right; simp [applyOp, hp]
  | chooseMode m => right; simp [applyOp, ha]
  | finishOk r => right; simp [applyOp, hr]
  | finishErr m => right; simp [applyOp, hr]
  | cancel => left; simp [applyOp, h]

/-- Running a sequence of operations never lowers the status rank. -/
theorem runOps_rank_mono (ops : List TaskOp) :
    ∀ t : Task, t.status.rank ≤ (runOps t ops).status.rank := by
  induction ops with
  | nil => intro t; simp [runOps]
  | cons op ops ih =>
    intro t
    rw [runOps]
    cases h : applyOp t op with
    | ok t2 => exact le_trans (applyOp_rank_mono t op t2 h) (ih t2)
    | error e => exact ih t

/-- A Task in a terminal status is immutable under any operation sequence. -/
theorem runOps_terminal_frozen (ops : List TaskOp) :
    ∀ t : Task, t.status.isTerminal = true → runOps t ops = t := by
  induction ops with
  | nil => intro t _; simp [runOps]
  | cons op ops ih =>
    intro t h
    rw [runOps]
    rcases applyOp_terminal_frozen t op h with hok | herr
    · rw [hok]; exact ih t h
    · rw [herr]; exact ih t h

/-- Claim C2: over any sequence of Task operations the status never moves
backward in the ordering `pending < awaitingChoice < running < terminal`,
and a Task in a terminal status never changes again, so every later status
snapshot of a terminal Task is identical. -/
theorem task_lifecycle_monotone (t : Task) (ops : List TaskOp) :
    t.status.rank ≤ (runOps t ops).status.rank ∧
    (t.status.isTerminal = true → runOps t ops = t) :=
  ⟨runOps_rank_mono ops t, runOps_terminal_frozen ops t⟩

/-- Witness for claim C2 at a concrete completed Task and operation list. -/
theorem task_lifecycle_monotone_witness :
    (Task.mk "t1" "th1" TaskStatus.completed 100 (some "done") none).status.isTerminal = true ∧
    runOps (Task.mk "t1" "th1" TaskStatus.completed 100 (some "done") none)
        [TaskOp.cancel, TaskOp.requireChoice, TaskOp.chooseMode Mode.async] =
      Task.mk "t1" "th1" TaskStatus.completed 100 (some "done") none :=
  ⟨by decide,
    (task_lifecycle_monotone (Task.mk "t1" "th1" TaskStatus.completed 100 (some "done") none)
        [TaskOp.cancel, TaskOp.requireChoice, TaskOp.chooseMode Mode.async]).2 (by decide)⟩

/-- Claim C3: `chooseMode` succeeds exactly while the Task is
`awaitingChoice` (moving it to `running`); in every other status it fails
with `InvalidTaskState` and the Task — status and all other fields — is
left unchanged. -/
theorem chooseMode_only_awaiting (t : Task) (m : Mode) :
    (t.status = TaskStatus.awaitingChoice →
        applyOp t (TaskOp.chooseMode m) = Except.ok { t with status := TaskStatus.running }) ∧
    (t.status ≠ TaskStatus.awaitingChoice →
        applyOp t (TaskOp.chooseMode m) = Except.error TaskErr.invalidTaskState ∧
        runOps t [TaskOp.chooseMode m] = t) := by
  constructor
  · intro h
    simp [applyOp, h]
  · intro h
    have he : applyOp t (TaskOp.chooseMode m) = Except.error TaskErr.invalidTaskState := by
      simp [applyOp, h]
    refine ⟨he, ?_⟩
    rw [runOps, he]
    simp [runOps]

/-- Witness for claim C3: choosing a mode on a completed Task fails with
`InvalidTaskState` and changes nothing. -/
theorem chooseMode_only_awaiting_witness :
    (Task.mk "t2" "th1" TaskStatus.completed 100 (some "done") none).status ≠
        TaskStatus.awaitingChoice ∧
    applyOp (Task.mk "t2" "th1" TaskStatus.completed 100 (some "done") none)
        (TaskOp.chooseMode Mode.async) = Except.error TaskErr.invalidTaskState ∧
    runOps (Task.mk "t2" "th1" TaskStatus.completed 100 (some "done") none)
        [TaskOp.chooseMode Mode.async] =
      Task.mk "t2" "th1" TaskStatus.completed 100 (some "done") none :=
  ⟨by decide,
    (chooseMode_only_awaiting (Task.mk "t2" "th1" TaskStatus.completed 100 (some "done") none)
        Mode.async).2 (by decide)⟩

/-- Claim C5: `cancel` never raises: on a non-terminal Task it moves the
status to `cancelled`, on a terminal Task it is a no-op, and a second
`cancel` returns the same terminal Task again without error. -/
theorem cancel_idempotent (t : Task) :
    ∃ t2 : Task,
      applyOp t TaskOp.cancel = Except.ok t2 ∧
      t2.status.isTerminal = true ∧
      applyOp t2 TaskOp.cancel = Except.ok t2 ∧
      (t.status.isTerminal = false → t2.status = TaskStatus.cancelled) ∧
      (t.status.isTerminal = true → t2 = t) := by
  by_cases h : t.status.isTerminal = true
  · refine ⟨t, ?_, h, ?_, ?_, fun _ => rfl⟩
    · simp [applyOp, h]
    · simp [applyOp, h]
    · intro hc; rw [h] at hc; cases hc
  · have hb : t.status.isTerminal = false := by
      cases hv : t.status.isTerminal
      · rfl
      · exact absurd hv h
    refine ⟨{ t with status := TaskStatus.cancelled }, ?_, by simp [TaskStatus.isTerminal], ?_,
      fun _ => rfl, ?_⟩
    · simp [applyOp, hb]
    · simp [applyOp, TaskStatus.isTerminal]
    · intro hc; rw [hc] at hb; cases hb

/-- Witness for claim C5 at a concrete running Task. -/
theorem cancel_idempotent_witness :
    ∃ t2 : Task,
      applyOp (Task.mk "t3" "th1" TaskStatus.running 40 none none) TaskOp.cancel =
          Except.ok t2 ∧
      t2.status.isTerminal = true ∧
      applyOp t2 TaskOp.cancel = Except.ok t2 ∧
      ((Task.mk "t3" "th1" TaskStatus.running 40 none none).status.isTerminal = false →
          t2.status = TaskStatus.cancelled) ∧
      ((Task.mk "t3" "th1" TaskStatus.running 40 none none).status.isTerminal = true →
          t2 = Task.mk "t3" "th1" TaskStatus.running 40 none none) :=
  cancel_idempotent (Task.mk "t3" "th1" TaskStatus.running 40 none none)

/-! ## Submission routing and interruption creation -/

/-- Claim C4: submitting on the `report` route creates exactly one Task,
already moved to `awaitingChoice`, together with exactly one Interruption
carrying the fixed two-option menu; the `simple` route never creates a
Task; and in the client a message goes to the async-report endpoint (and
sets the pending interruption) exactly when its lowercased text contains
"report", "analysis" or "research". -/
theorem report_route_interruption :
    (∀ tid text newId : String, ∃ t : Task, ∃ i : Interruption,
        submit tid text newId Route.report = some (t, i) ∧
        t.status = TaskStatus.awaitingChoice ∧
        i.choices = ["stream", "async"] ∧
        i.taskId = newId ∧ i.threadId = tid) ∧
    (∀ tid text newId : String, submit tid text newId Route.simple = none) ∧
    (∀ text : String,
        clientSendAction text = ClientAction.createInterruption ↔
          isReportRequest text = true) := by
  refine ⟨?_, fun _ _ _ => rfl, ?_⟩
  · intro tid text newId
    exact ⟨{ id := newId, threadId := tid, status := TaskStatus.awaitingChoice,
             progress := 0, resultText := none, errorText := none },
           { taskId := newId, threadId := tid,
             prompt := "How would you like the report to be generated for: " ++ text,
             choices := ["stream", "async"] },
           rfl, rfl, rfl, rfl, rfl⟩
  · intro text
    cases h : isReportRequest text <;> simp [clientSendAction, h]

/-- Witness for claim C4 at a concrete report submission and a concrete
report-like client message. -/
theorem report_route_interruption_witness :
    (∃ t : Task, ∃ i : Interruption,
        submit "th1" "make a market report" "task-1" Route.report = some (t, i) ∧
        t.status = TaskStatus.awaitingChoice ∧
        i.choices = ["stream", "async"] ∧
        i.taskId = "task-1" ∧ i.threadId = "th1") ∧
    (clientSendAction "Please build a Report for me" = ClientAction.createInterruption ↔
        isReportRequest "Please build a Report for me" = true) :=
  ⟨report_route_interruption.1 "th1" "make a market report" "task-1",
    report_route_interruption.2.2 "Please build a Report for me"⟩

/-! ## Stream termination discipline -/

/-- The chunk count of each type distributes over list append. -/
theorem countType_append (ty : ChunkType) (a b : List StreamChunk) :
    countType ty (a ++ b) = countType ty a + countType ty b := by
  simp [countType, List.filter_append]

/-- Content chunks contribute nothing to the `end` or `error` counts. -/
theorem countType_map_content (ty : ChunkType) (hty : ty ≠ ChunkType.content)
    (frs : List String) :
    countType ty (frs.map contentChunk) = 0 := by
  have h2 : ¬(ChunkType.content = ty) := fun hc => hty hc.symm
  induction frs with
  | nil => rfl
  | cons s rest ih => simp [countType, contentChunk, h2]

/-- Claim C6: every produced stream splits as a prefix (with no `end` chunk,
and exactly one `error` chunk when and only when the workflow failed)
followed by exactly one final `end` chunk, so a stream always terminates in
exactly one `end` event, every `error` event precedes it, and a failing
workflow reports exactly one error. -/
theorem stream_single_end (frs : List String) (failure : Option String) :
    ∃ pre : List StreamChunk,
      produceStream frs failure = pre ++ [endChunk] ∧
      countType ChunkType.endEvt pre = 0 ∧
      countType ChunkType.error pre =
        (match failure with | some _ => 1 | none => 0) ∧
      countType ChunkType.endEvt (produceStream frs failure) = 1 ∧
      countType ChunkType.error (produceStream frs failure) =
        (match failure with | some _ => 1 | none => 0) := by
  refine ⟨metaChunk ::
      (frs.map contentChunk ++
        (match failure with | some m => [errChunk m] | none => [])), ?_, ?_, ?_, ?_, ?_⟩ <;>
    cases failure <;>
      simp [produceStream, countType_append, countType, metaChunk, endChunk, errChunk,
        contentChunk, List.append_assoc]

/-- Witness for claim C6 at a concrete failing stream. -/
theorem stream_single_end_witness :
    ∃ pre : List StreamChunk,
      produceStream ["part one"] (some "model call failed") = pre ++ [endChunk] ∧
      countType ChunkType.endEvt pre = 0 ∧
      countType ChunkType.error pre = 1 ∧
      countType ChunkType.endEvt (produceStream ["part one"] (some "model call failed")) = 1 ∧
      countType ChunkType.error (produceStream ["part one"] (some "model call failed")) = 1 :=
  stream_single_end ["part one"] (some "model call failed")

/-! ## Classifier -/

/-- A positive score clears the `1/2` confidence threshold under the
saturating normalization `s / (s + 1/2)`. -/
theorem confOf_gt_half (text : String) (h : 0 < reportScore text) :
    1 / 2 < confOf text := by
  unfold confOf
  have hs : (1 : ℚ) ≤ (reportScore text : ℚ) := by
    exact_mod_cast h
  have hden : (0 : ℚ) < (reportScore text : ℚ) + 1 / 2 := by linarith
  rw [lt_div_iff₀ hden]
  linarith

/-- Claim C7: any text matching at least one report-signal keyword and no
chat-signal keyword is classified `report` with confidence strictly above
`1/2`; and in the client, containing "report", "analysis" or "research"
after lowercasing sends the message down the async-report path. -/
theorem classifier_report_signal :
    (∀ text : String,
        1 ≤ (matchedKeywords text reportSignals).length →
        (matchedKeywords text chatSignals).length = 0 →
        (classify text).route = Route.report ∧ 1 / 2 < (classify text).confidence) ∧
    (∀ text : String, isReportRequest text = true →
        clientSendAction text = ClientAction.createInterruption) := by
  constructor
  · intro text h1 h2
    have hscore : 0 < reportScore text := by
      unfold reportScore
      rw [h2]
      have : (1 : ℤ) ≤ ((matchedKeywords text reportSignals).length : ℤ) := by
        exact_mod_cast h1
      omega
    have hconf : 1 / 2 < confOf text := confOf_gt_half text hscore
    have hgoal : classify text =
        { route := Route.report, confidence := confOf text,
          matched := matchedKeywords text reportSignals ++ matchedKeywords text chatSignals } := by
      unfold classify
      rw [if_pos hscore, if_pos hconf]
    exact ⟨by rw [hgoal], by rw [hgoal]; exact hconf⟩
  · intro text h
    simp [clientSendAction, h]

/-- Witness for claim C7 at a concrete report-signal-only text. -/
theorem classifier_report_signal_witness :
    1 ≤ (matchedKeywords "please write a report" reportSignals).length ∧
    (matchedKeywords "please write a report" chatSignals).length = 0 ∧
    ((classify "please write a report").route = Route.report ∧
      1 / 2 < (classify "please write a report").confidence) ∧
    (isReportRequest "please write a report" = true ∧
      clientSendAction "please write a report" = ClientAction.createInterruption) :=
  ⟨by decide, by decide,
    classifier_report_signal.1 "please write a report" (by decide) (by decide),
    by decide, classifier_report_signal.2 "please write a report" (by decide)⟩

/-! ## Restricted arithmetic evaluator -/

/-- Claim C8: the arithmetic evaluator rejects every input containing a
character outside numeric literals, `+ - * / ( )` and spaces (hence every
identifier, function call or assignment) with `InvalidExpression` before
evaluation, and on the accepted input `"25 * 4 + 10"` returns exactly
`110`. -/
theorem arith_reject_and_eval :
    (∀ (s : String) (c : Char), c ∈ s.data → allowedChar c = false →
        evalArith s = Except.error EvalErr.invalidExpression) ∧
    evalArith "25 * 4 + 10" = Except.ok 110 := by
  constructor
  · intro s c hc hbad
    have hall : s.data.all allowedChar = false := by
      rw [List.all_eq_false]
      exact ⟨c, hc, by simp [hbad]⟩
    simp [evalArith, hall]
  · have h : evalArith "25 * 4 + 10" =
        Except.ok (ratOfFrac { num := 110, den := 1 }) := by rfl
    rw [h]
    norm_num [ratOfFrac]

/-- Witness for claim C8: the assignment `"x = 1"` contains the disallowed
characters `x` and `=` and is rejected. -/
theorem arith_reject_and_eval_witness :
    'x' ∈ "x = 1".data ∧ allowedChar 'x' = false ∧
    evalArith "x = 1" = Except.error EvalErr.invalidExpression :=
  ⟨by decide, by decide, arith_reject_and_eval.1 "x = 1" 'x' (by decide) (by decide)⟩

/-! ## Per-thread exclusivity and the send-button guard -/

/-- Claim C9: in the Supervisor occupancy model a thread has at most one
in-flight execution — submitting on a busy thread is rejected with
`ThreadBusy` and changes nothing, occupancy stays duplicate-free under
submit and complete — and in the client the send button is disabled
whenever an upload, a send or a stream is in progress. -/
theorem thread_exclusive :
    (∀ (st : SupervisorState) (tid : String), st.inFlight.Nodup →
        (submitOnThread st tid).2.inFlight.Nodup ∧
        (completeOnThread st tid).inFlight.Nodup ∧
        (∀ u : String, (submitOnThread st tid).2.inFlight.count u ≤ 1) ∧
        (tid ∈ st.inFlight → submitOnThread st tid = (SubmitOutcome.threadBusy, st))) ∧
    (∀ (up sd str : Bool) (tid : String), (up || sd || str) = true →
        sendButtonDisabled up sd str tid = true) := by
  constructor
  · intro st tid hnd
    have hsub : (submitOnThread st tid).2.inFlight.Nodup := by
      by_cases hmem : tid ∈ st.inFlight
      · simp [submitOnThread, hmem]
        exact hnd
      · simp only [submitOnThread, if_neg hmem]
        exact List.nodup_cons.mpr ⟨hmem, hnd⟩
    refine ⟨hsub, hnd.erase tid, ?_, ?_⟩
    · exact fun u => List.nodup_iff_count_le_one.mp hsub u
    · intro hmem
      simp [submitOnThread, hmem]
  · intro up sd str tid h
    have : up = true ∨ sd = true ∨ str = true := by
      cases up <;> cases sd <;> cases str <;> simp_all
    rcases this with h1 | h1 | h1 <;> simp [sendButtonDisabled, h1]

/-- Witness for claim C9 at a concrete busy thread and an in-progress
stream. -/
theorem thread_exclusive_witness :
    (SupervisorState.mk ["th1"]).inFlight.Nodup ∧
    submitOnThread (SupervisorState.mk ["th1"]) "th1" =
      (SubmitOutcome.threadBusy, SupervisorState.mk ["th1"]) ∧
    ((false || false || true) = true ∧ sendButtonDisabled false false true "th1" = true) :=
  ⟨by decide,
    (thread_exclusive.1 (SupervisorState.mk ["th1"]) "th1" (by decide)).2.2.2 (by decide),
    by decide, thread_exclusive.2 false false true "th1" (by decide)⟩

/-! ## `streamChatMessage` never rejects -/

/-- Handling a single SSE line never produces the completion callback. -/
theorem completeCb_not_in_handleLine (parse : String → Option StreamChunk) (line : String) :
    CbEvent.completeCb ∉ handleLine parse line := by
  unfold handleLine
  by_cases h1 : line.startsWith "data: "
  · simp only [if_pos h1]
    by_cases h2 : (line.drop 6).trim ≠ ""
    · simp only [if_pos h2]
      cases parse (line.drop 6) <;> simp
    · simp only [if_neg h2]
      simp
  · simp [h1]

/-- The last callback of the read loop is `onComplete` when the body is read
to its end, and the read-failure report otherwise. -/
theorem readLoop_getLast (parse : String → Option StreamChunk) (reads : List String) :
    ∀ (failure : Option String) (buffer : String),
      (readLoop parse reads failure buffer).getLast? =
        some (match failure with
          | none => CbEvent.completeCb
          | some m => CbEvent.errorCb m) := by
  induction reads with
  | nil => intro failure buffer; cases failure <;> rfl
  | cons v rest ih =>
    intro failure buffer
    have hne : readLoop parse rest failure (((buffer ++ v).splitOn "\n").getLastD "") ≠ [] := by
      intro hc
      have h2 := ih failure (((buffer ++ v).splitOn "\n").getLastD "")
      rw [hc] at h2
      simp at h2
    simp only [readLoop]
    rw [List.getLast?_append_of_ne_nil _ hne]
    exact ih failure _

/-- The completion callback fires exactly when the body stream has no
mid-stream read failure. -/
theorem readLoop_complete_iff (parse : String → Option StreamChunk) (reads : List String) :
    ∀ (failure : Option String) (buffer : String),
      CbEvent.completeCb ∈ readLoop parse reads failure buffer ↔ failure = none := by
  induction reads with
  | nil => intro failure buffer; cases failure <;> simp [readLoop]
  | cons v rest ih =>
    intro failure buffer
    simp only [readLoop, List.mem_append]
    constructor
    · rintro (h | h)
      · exfalso
        rw [List.mem_flatten] at h
        obtain ⟨l, hl, hmem⟩ := h
        rw [List.mem_map] at hl
        obtain ⟨line, _, hline⟩ := hl
        rw [← hline] at hmem
        exact completeCb_not_in_handleLine parse line hmem
      · exact (ih failure _).mp h
    · intro h
      exact Or.inr ((ih failure _).mpr h)

/-- A delivered data line whose payload fails JSON parsing is handled by
reporting `"Failed to parse stream data"` through `onError`. -/
theorem handleLine_parse_failure (parse : String → Option StreamChunk) (line : String)
    (h1 : line.startsWith "data: " = true) (h2 : (line.drop 6).trim ≠ "")
    (h3 : parse (line.drop 6) = none) :
    handleLine parse line = [CbEvent.errorCb "Failed to parse stream data"] := by
  unfold handleLine
  rw [if_pos h1, if_pos h2, h3]

/-- If any complete line the read loop processes is a failing data line,
the parse-failure report appears among the emitted callbacks. -/
theorem readLoop_parse_failure (parse : String → Option StreamChunk) (reads : List String) :
    ∀ (failure : Option String) (buffer line : String),
      line ∈ loopLines reads buffer →
      line.startsWith "data: " = true →
      (line.drop 6).trim ≠ "" →
      parse (line.drop 6) = none →
      CbEvent.errorCb "Failed to parse stream data" ∈ readLoop parse reads failure buffer := by
  induction reads with
  | nil =>
    intro failure buffer line h
    simp [loopLines] at h
  | cons v rest ih =>
    intro failure buffer line hmem h1 h2 h3
    simp only [loopLines] at hmem
    rw [List.mem_append] at hmem
    simp only [readLoop, List.mem_append]
    rcases hmem with h | h
    · refine Or.inl ?_
      rw [List.mem_flatten]
      refine ⟨handleLine parse line, List.mem_map_of_mem _ h, ?_⟩
      rw [handleLine_parse_failure parse line h1 h2 h3]
      simp
    · exact Or.inr (ih failure _ line h h1 h2 h3)

/-- Claim C10: `streamChatMessage` resolves for every input — each failure
condition (network error, non-ok response, missing body reader, a data
line failing JSON parsing, mid-stream read failure) is reported through
`onError` (parse failures without aborting the loop), `onComplete` fires
exactly when the response body is read to its end, and the callback
sequence always terminates in either `onComplete` or an `onError`
report. -/
theorem streamChatMessage_resolves (parse : String → Option StreamChunk)
    (fr : Except String FetchResponse) :
    (∀ e : String, fr = Except.error e →
        streamChatMessage parse fr = [CbEvent.errorCb e]) ∧
    (∀ resp : FetchResponse, fr = Except.ok resp → resp.ok = false →
        streamChatMessage parse fr =
          [CbEvent.errorCb ("Failed to start streaming: " ++ resp.statusText)]) ∧
    (∀ resp : FetchResponse, fr = Except.ok resp → resp.ok = true → resp.body = none →
        streamChatMessage parse fr = [CbEvent.errorCb "No response body reader available"]) ∧
    (CbEvent.completeCb ∈ streamChatMessage parse fr ↔
        ∃ (resp : FetchResponse) (bs : BodyStream),
          fr = Except.ok resp ∧ resp.ok = true ∧ resp.body = some bs ∧
          bs.readFailure = none) ∧
    ((streamChatMessage parse fr).getLast? = some CbEvent.completeCb ∨
      ∃ m : String, (streamChatMessage parse fr).getLast? = some (CbEvent.errorCb m)) ∧
    (∀ line : String,
        line.startsWith "data: " = true →
        (line.drop 6).trim ≠ "" →
        parse (line.drop 6) = none →
        handleLine parse line = [CbEvent.errorCb "Failed to parse stream data"]) ∧
    (∀ (resp : FetchResponse) (bs : BodyStream) (line : String),
        fr = Except.ok resp → resp.ok = true → resp.body = some bs →
        line ∈ loopLines bs.chunksRead "" →
        line.startsWith "data: " = true →
        (line.drop 6).trim ≠ "" →
        parse (line.drop 6) = none →
        CbEvent.errorCb "Failed to parse stream data" ∈ streamChatMessage parse fr) := by
  cases fr with
  | error e =>
    refine ⟨?_, ?_, ?_, ?_, ?_, ?_, ?_⟩
    · intro e2 he
      injection he with he2
      rw [← he2]
      rfl
    · intro resp h _
      simp at h
    · intro resp h _ _
      simp at h
    · constructor
      · intro h
        simp [streamChatMessage] at h
      · rintro ⟨resp, bs, h, _⟩
        simp at h
    · exact Or.inr ⟨e, rfl⟩
    · exact fun line h1 h2 h3 => handleLine_parse_failure parse line h1 h2 h3
    · intro resp bs line h _ _ _ _ _ _
      simp at h
  | ok resp =>
    obtain ⟨hok, stx, body⟩ := resp
    cases hok with
    | false =>
      refine ⟨?_, ?_, ?_, ?_, ?_, ?_, ?_⟩
      · intro e2 he
        simp at he
      · intro resp2 h _
        injection h with h2
        rw [← h2]
        rfl
      · intro resp2 h htrue _
        injection h with h2
        rw [← h2] at htrue
        simp at htrue
      · constructor
        · intro h
          simp [streamChatMessage] at h
        · rintro ⟨resp2, bs, h, htrue, _⟩
          injection h with h2
          rw [← h2] at htrue
          simp at htrue
      · exact Or.inr ⟨"Failed to start streaming: " ++ stx, rfl⟩
      · exact fun line h1 h2 h3 => handleLine_parse_failure parse line h1 h2 h3
      · intro resp2 bs line h htrue _ _ _ _ _
        injection h with h2
        rw [← h2] at htrue
        simp at htrue
    | true =>
      cases body with
      | none =>
        refine ⟨?_, ?_, ?_, ?_, ?_, ?_, ?_⟩
        · intro e2 he
          simp at he
        · intro resp2 h hfalse
          injection h with h2
          rw [← h2] at hfalse
          simp at hfalse
        · intro resp2 h _ _
          rfl
        · constructor
          · intro h
            simp [streamChatMessage] at h
          · rintro ⟨resp2, bs, h, _, hbody, _⟩
            injection h with h2
            rw [← h2] at hbody
            simp at hbody
        · exact Or.inr ⟨"No response body reader available", rfl⟩
        · exact fun line h1 h2 h3 => handleLine_parse_failure parse line h1 h2 h3
        · intro resp2 bs line h _ hbody _ _ _ _
          injection h with h2
          rw [← h2] at hbody
          simp at hbody
      | some bs =>
        have hrun : streamChatMessage parse
            (Except.ok { ok := true, statusText := stx, body := some bs }) =
            readLoop parse bs.chunksRead bs.readFailure "" := rfl
        refine ⟨?_, ?_, ?_, ?_, ?_, ?_, ?_⟩
        · intro e2 he
          simp at he
        · intro resp2 h hfalse
          injection h with h2
          rw [← h2] at hfalse
          simp at hfalse
        · intro resp2 h _ hbody
          injection h with h2
          rw [← h2] at hbody
          simp at hbody
        · rw [hrun, readLoop_complete_iff parse bs.chunksRead bs.readFailure ""]
          constructor
          · intro h
            exact ⟨{ ok := true, statusText := stx, body := some bs }, bs, rfl, rfl, rfl, h⟩
          · rintro ⟨resp2, bs2, h, _, hbody, hfail⟩
            injection h with h2
            rw [← h2] at hbody
            simp at hbody
            rw [← hbody] at hfail
            exact hfail
        · rw [hrun, readLoop_getLast parse bs.chunksRead bs.readFailure ""]
          cases hf : bs.readFailure with
          | none => exact Or.inl rfl
          | some m => exact Or.inr ⟨m, rfl⟩
        · exact fun line h1 h2 h3 => handleLine_parse_failure parse line h1 h2 h3
        · intro resp2 bs2 line h _ hbody hmem h1 h2 h3
          injection h with h2e
          rw [← h2e] at hbody
          simp at hbody
          subst hbody
          rw [hrun]
          exact readLoop_parse_failure parse bs.chunksRead bs.readFailure "" line hmem h1 h2 h3

/-- Witness for claim C10 at a concrete network failure. -/
theorem streamChatMessage_resolves_witness :
    streamChatMessage (fun _ => none) (Except.error "network down") =
      [CbEvent.errorCb "network down"] :=
  (streamChatMessage_resolves (fun _ => none) (Except.error "network down")).1
    "network down" rfl

end ChatCore
